import Mathlib

/-!
Verification of `tun_helper.c`: launcher and terminator for the tunnel child process.

A shallow embedding of `src-tauri/tauri-plugin-vpn/android/src/main/cpp/tun_helper.c`.

* `nativeKillProcess` (the terminator) is embedded as a function of the process
  identifier and of the results the operating system gives to the successive
  `kill` and `waitpid` calls; it yields the returned `jint` together with the
  trace of calls made.
* `nativeStartWithTunFd` (the launcher) is embedded as a function of the two
  strings obtained through JNI, the descriptor, the result of `fork`, and the
  descriptor table the child inherits; it yields either the value returned in
  the caller's process or the state in which the child calls `execv`.
-/

namespace TunHelper

/-! ## Calls and traces -/

/-- Signal number of the graceful termination signal (value of `<signal.h>` on Linux). -/
def SIGTERM : Int := 15

/-- Signal number of the forced termination signal (value of `<signal.h>` on Linux). -/
def SIGKILL : Int := 9

/-- Option bit asking `waitpid` not to block (value of `<sys/wait.h>` on Linux). -/
def WNOHANG : Int := 1

/-- Which of the two JNI strings a call refers to. -/
inductive PathArg
  | exe
  | config
  deriving DecidableEq, Repr

/-- Calls made in the caller's process, in the order of the source. -/
inductive Sys
  | kill (pid sig : Int)
  | waitpid (pid options : Int)
  | usleep (usec : Nat)
  | fork
  | releaseStringUTFChars (arg : PathArg)
  deriving DecidableEq, Repr

/-- One call together with the value it returned. -/
structure Event where
  call : Sys
  result : Int
  deriving DecidableEq, Repr

/-- Calls that reach the operating system (releasing a JNI string does not). -/
def Sys.isOS : Sys → Bool
  | .releaseStringUTFChars _ => false
  | _ => true

/-- A non-blocking exit check on `pid`. -/
def isCheck (pid : Int) (e : Event) : Bool :=
  decide (e.call = Sys.waitpid pid WNOHANG)

/-- Any `waitpid` on `pid`, blocking or not. -/
def isWait (pid : Int) (e : Event) : Bool :=
  match e.call with
  | .waitpid p _ => decide (p = pid)
  | _ => false

/-! ## The terminator -/

/-- Behaviour of the operating system during one run of the terminator:
the value returned by the `n`-th call of `kill` and by the `n`-th call of
`waitpid` (both counted from 0). -/
structure ProcOS where
  killRet : Nat → Int
  waitRet : Nat → Int

/-- The loop `for (int i = 0; i < 10; i++) { ret = waitpid(pid, &status, WNOHANG);
if (ret != 0) break; usleep(100000); }` with `n = 10 - i` iterations left and
`w` calls of `waitpid` made so far.  Yields the trace of the loop and the
number of `waitpid` calls made when it ends. -/
def pollLoop (os : ProcOS) (pid : Int) : Nat → Nat → List Event × Nat
  | 0, w => ([], w)
  | n + 1, w =>
    let ret := os.waitRet w
    if ret ≠ 0 then
      ([⟨Sys.waitpid pid WNOHANG, ret⟩], w + 1)
    else
      let r := pollLoop os pid n (w + 1)
      (⟨Sys.waitpid pid WNOHANG, ret⟩ :: ⟨Sys.usleep 100000, 0⟩ :: r.1, r.2)

/-- Embedding of `Java_com_rustvpn_vpn_TunHelper_nativeKillProcess`: the returned value and
the trace of calls. -/
def nativeKillProcess (os : ProcOS) (pid : Int) : Int × List Event :=
  if pid ≤ 0 then (-1, [])
  else
    let k := os.killRet 0
    if k = 0 then
      let r := pollLoop os pid 10 0
      let f := os.waitRet r.2
      if f = 0 then
        (0, ⟨Sys.kill pid SIGTERM, k⟩ :: (r.1 ++
          [⟨Sys.waitpid pid WNOHANG, f⟩,
           ⟨Sys.kill pid SIGKILL, os.killRet 1⟩,
           ⟨Sys.waitpid pid 0, os.waitRet (r.2 + 1)⟩]))
      else
        (0, ⟨Sys.kill pid SIGTERM, k⟩ :: (r.1 ++ [⟨Sys.waitpid pid WNOHANG, f⟩]))
    else
      (-1, [⟨Sys.kill pid SIGTERM, k⟩])

/-- The trace of `k` rounds of the poll loop in which the process is still running:
a non-blocking check that returns 0, then the 100 ms delay. -/
def rounds (pid : Int) : Nat → List Event
  | 0 => []
  | k + 1 => ⟨Sys.waitpid pid WNOHANG, 0⟩ :: ⟨Sys.usleep 100000, 0⟩ :: rounds pid k

/-- The forced signal `kill(pid, SIGKILL)`. -/
def isForceKill (pid : Int) (e : Event) : Bool :=
  decide (e.call = Sys.kill pid SIGKILL)

/-- The operating system in which the `n`-th `kill` returns `ks.getD n 0` and the
`n`-th `waitpid` returns `ws.getD n d`. -/
def scriptedOS (ks ws : List Int) (d : Int) : ProcOS :=
  ⟨fun n => ks.getD n 0, fun n => ws.getD n d⟩

/-! ## The launcher -/

/-- The close-on-exec descriptor flag (value of `<fcntl.h>` on Linux). -/
def FD_CLOEXEC : Int := 1

/-- An open descriptor: the open file it refers to and its descriptor flags
(bit 0 is `FD_CLOEXEC`). -/
structure FdEntry where
  file : Nat
  flags : Nat
  deriving DecidableEq, Repr

/-- A descriptor table: `none` for a descriptor that is not open. -/
abbrev FdTable := Int → Option FdEntry

/-- The table with slot `fd` replaced. -/
def FdTable.put (t : FdTable) (fd : Int) (e : Option FdEntry) : FdTable :=
  fun j => if j = fd then e else t j

/-- Result of `fcntl(fd, F_GETFD)`: the descriptor flags, or -1 when `fd` is not open. -/
def fcntlGetFd (t : FdTable) (fd : Int) : Int :=
  match t fd with
  | some e => (e.flags : Int)
  | none => -1

/-- Effect of `fcntl(fd, F_SETFD, flags)`. -/
def fcntlSetFd (t : FdTable) (fd : Int) (flags : Int) : FdTable :=
  match t fd with
  | some e => t.put fd (some ⟨e.file, flags.toNat⟩)
  | none => t

/-- Effect of `close(fd)`. -/
def closeFd (t : FdTable) (fd : Int) : FdTable :=
  t.put fd none

/-- Effect and result of `open` on the file `file` without `O_CLOEXEC`: the
kernel either installs the file in the unused slot `slot` it has chosen and
returns it, or fails with -1 (a negative `slot`, or one that is in use, stands
for a failure). -/
def openFile (t : FdTable) (slot : Int) (file : Nat) : Int × FdTable :=
  if 0 ≤ slot ∧ (t slot).isNone then (slot, t.put slot (some ⟨file, 0⟩)) else (-1, t)

/-- Effect of `dup2(oldfd, newfd)` for `oldfd ≠ newfd`: `newfd` refers to the
file of `oldfd`, with its close-on-exec flag off. -/
def dup2 (t : FdTable) (oldfd newfd : Int) : FdTable :=
  match t oldfd with
  | some e => t.put newfd (some ⟨e.file, 0⟩)
  | none => t

/-- The loop `for (int i = 3; i < maxfd; i++) { if (i != tunFd) close(i); }`
from the value `i` of the counter on, with `n = maxfd - i` iterations left. -/
def closeLoop (tunFd : Int) : Nat → Int → FdTable → FdTable
  | 0, _, t => t
  | n + 1, i, t => closeLoop tunFd n (i + 1) (if i ≠ tunFd then closeFd t i else t)

/-- The C string held in a character buffer: the bytes before the first NUL. -/
def cstr (buf : List Nat) : List Nat :=
  buf.takeWhile (fun b => b ≠ 0)

/-- Effect of `strncpy(dst, src, n)` on the buffer `dst`, `src` being the bytes of
the source string: at most `n` bytes of the string are copied, and when the string is
shorter the remainder of the `n` bytes is filled with NUL. -/
def strncpy (dst src : List Nat) (n : Nat) : List Nat :=
  (cstr src).take n ++ List.replicate (n - (cstr src).length) 0 ++ dst.drop n

/-- An uninitialised `char[size]`: its bytes are whatever `junk` holds. -/
def uninit (junk : Nat → Nat) (size : Nat) : List Nat :=
  (List.range size).map junk

/-- What the child inherits and what the kernel answers it. -/
structure ChildOS where
  /-- the descriptor table copied by `fork` -/
  table : FdTable
  /-- the value returned by `sysconf(_SC_OPEN_MAX)` -/
  openMax : Int
  /-- the slot the kernel picks for `open("/dev/null", O_RDWR)` (negative: failure) -/
  openSlot : Int
  /-- the open file `/dev/null` -/
  devNull : Nat

/-- The call `execv(path, argv)` of the child and the descriptor table at that moment. -/
structure ExecCall where
  path : List Nat
  argv : List (List Nat)
  table : FdTable

/-- The bound of the closing loop: `long maxfd = sysconf(_SC_OPEN_MAX);
if (maxfd < 0) maxfd = 1024;`. -/
def ChildOS.maxfd (os : ChildOS) : Int :=
  if os.openMax < 0 then 1024 else os.openMax

/-- The step `int flags = fcntl(tunFd, F_GETFD); if (flags >= 0) { fcntl(tunFd, F_SETFD,
flags & ~FD_CLOEXEC); }`. -/
def clearCloexec (t : FdTable) (tunFd : Int) : FdTable :=
  let flags := fcntlGetFd t tunFd
  if flags ≥ 0 then fcntlSetFd t tunFd (Int.land flags (Int.lnot FD_CLOEXEC)) else t

/-- The step `int devnull = open("/dev/null", O_RDWR); if (devnull >= 0 && devnull != 0)
{ dup2(devnull, 0); if (devnull != tunFd) close(devnull); }`. -/
def redirectStdin (t : FdTable) (tunFd : Int) (slot : Int) (file : Nat) : FdTable :=
  let o := openFile t slot file
  let devnull := o.1
  if devnull ≥ 0 ∧ devnull ≠ 0 then
    (if devnull ≠ tunFd then closeFd (dup2 o.2 devnull 0) devnull else dup2 o.2 devnull 0)
  else o.2

/-- The child branch (`pid == 0`) of `nativeStartWithTunFd` up to its call of `execv`.
The counter `i` of the closing loop is taken as an unbounded integer (the source has
`int i` against `long maxfd`). -/
def childImage (os : ChildOS) (exe_buf cfg_buf : List Nat) (tunFd : Int) : ExecCall :=
  let t1 := clearCloexec os.table tunFd
  let t2 := closeLoop tunFd (os.maxfd - 3).toNat 3 t1
  let t3 := redirectStdin t2 tunFd os.openSlot os.devNull
  ⟨cstr exe_buf, [cstr exe_buf, cstr cfg_buf], t3⟩

/-- Behaviour of the environment during one run of the launcher. -/
structure LaunchOS where
  /-- the value returned by `fork` -/
  forkRet : Int
  /-- the child side, used when `fork` returns 0 -/
  child : ChildOS
  /-- initial contents of `exe_buf` -/
  junkExe : Nat → Nat
  /-- initial contents of `cfg_buf` -/
  junkCfg : Nat → Nat

/-- Outcome of one run of the launcher, seen from the image that runs it. -/
inductive LaunchResult
  /-- the function returns `value` to its caller, after the calls of `trace` -/
  | returned (value : Int) (trace : List Event)
  /-- `fork` returned 0: this image never returns to the caller, it calls `execv`
  (and `_exit(127)` should that fail) -/
  | child (trace : List Event) (exec : ExecCall)

/-- Embedding of `Java_com_rustvpn_vpn_TunHelper_nativeStartWithTunFd`.  `exePath` and `configPath`
are the results of `GetStringUTFChars`: `none` for `NULL`, else the bytes of the string. -/
def nativeStartWithTunFd (os : LaunchOS) (exePath configPath : Option (List Nat))
    (tunFd : Int) : LaunchResult :=
  match exePath, configPath with
  | some exe, some cfg =>
    let exe_buf := (strncpy (uninit os.junkExe 512) exe (512 - 1)).set (512 - 1) 0
    let cfg_buf := (strncpy (uninit os.junkCfg 512) cfg (512 - 1)).set (512 - 1) 0
    let pre : List Event :=
      [⟨Sys.releaseStringUTFChars PathArg.exe, 0⟩,
       ⟨Sys.releaseStringUTFChars PathArg.config, 0⟩,
       ⟨Sys.fork, os.forkRet⟩]
    if os.forkRet < 0 then LaunchResult.returned (-1) pre
    else if os.forkRet = 0 then LaunchResult.child pre (childImage os.child exe_buf cfg_buf tunFd)
    else LaunchResult.returned os.forkRet pre
  | some _, none => LaunchResult.returned (-1) [⟨Sys.releaseStringUTFChars PathArg.exe, 0⟩]
  | none, some _ => LaunchResult.returned (-1) [⟨Sys.releaseStringUTFChars PathArg.config, 0⟩]
  | none, none => LaunchResult.returned (-1) []

/-- The value returned to the caller, if the image returns. -/
def LaunchResult.value? : LaunchResult → Option Int
  | .returned v _ => some v
  | .child _ _ => none

/-- The calls made before returning or before entering the child branch. -/
def LaunchResult.trace : LaunchResult → List Event
  | .returned _ tr => tr
  | .child tr _ => tr

/-- The `execv` call, when the image is the child. -/
def LaunchResult.exec? : LaunchResult → Option ExecCall
  | .returned _ _ => none
  | .child _ c => some c

/-- A `fork` call. -/
def isFork (e : Event) : Bool :=
  decide (e.call = Sys.fork)

/-- A table with the three standard descriptors, the tunnel on `5` (close-on-exec set)
and one more file on descriptor `hi`. -/
def sampleTable (hi : Int) : FdTable :=
  fun j => if j = 0 then some ⟨10, 0⟩ else if j = 1 then some ⟨11, 0⟩
    else if j = 2 then some ⟨12, 0⟩ else if j = 5 then some ⟨50, 1⟩
    else if j = hi then some ⟨60, 1⟩ else none

/-- A launcher environment in which `fork` returns `forkRet`. -/
def sampleOS (forkRet : Int) (hi : Int) (openMax : Int) : LaunchOS :=
  ⟨forkRet, ⟨sampleTable hi, openMax, 3, 99⟩, fun _ => 7, fun _ => 8⟩

/-! ## Lemmas on the poll loop -/

theorem pollLoop_all_zero (os : ProcOS) (pid : Int) :
    ∀ n w, (∀ j, j < n → os.waitRet (w + j) = 0) →
      pollLoop os pid n w = (rounds pid n, w + n) := by
  intro n
  induction n with
  | zero => intro w _; simp [pollLoop, rounds]
  | succ n ih =>
    intro w h
    have h0 : os.waitRet w = 0 := by simpa using h 0 (Nat.succ_pos n)
    have h1 : ∀ j, j < n → os.waitRet (w + 1 + j) = 0 := by
      intro j hj
      have := h (j + 1) (Nat.succ_lt_succ hj)
      rwa [show w + 1 + j = w + (j + 1) by omega]
    simp [pollLoop, rounds, h0, ih (w + 1) h1]
    omega

theorem pollLoop_break (os : ProcOS) (pid : Int) :
    ∀ k n w, k < n → (∀ j, j < k → os.waitRet (w + j) = 0) → os.waitRet (w + k) ≠ 0 →
      pollLoop os pid n w =
        (rounds pid k ++ [⟨Sys.waitpid pid WNOHANG, os.waitRet (w + k)⟩], w + k + 1) := by
  intro k
  induction k with
  | zero =>
    intro n w hn _ hk
    obtain ⟨m, rfl⟩ : ∃ m, n = m + 1 := ⟨n - 1, by omega⟩
    have hk0 : os.waitRet w ≠ 0 := by simpa using hk
    simp [pollLoop, rounds, hk0]
  | succ k ih =>
    intro n w hn h hk
    obtain ⟨m, rfl⟩ : ∃ m, n = m + 1 := ⟨n - 1, by omega⟩
    have h0 : os.waitRet w = 0 := by simpa using h 0 (Nat.succ_pos k)
    have h1 : ∀ j, j < k → os.waitRet (w + 1 + j) = 0 := by
      intro j hj
      have := h (j + 1) (Nat.succ_lt_succ hj)
      rwa [show w + 1 + j = w + (j + 1) by omega]
    have hk1 : os.waitRet (w + 1 + k) ≠ 0 := by
      rwa [show w + 1 + k = w + (k + 1) by omega]
    have hm : k < m := by omega
    have e := ih m (w + 1) hm h1 hk1
    simp only [pollLoop, h0, ne_eq, not_true_eq_false, if_false, e, rounds, List.cons_append]
    rw [show w + 1 + k = w + (k + 1) by omega]

theorem pollLoop_shape (os : ProcOS) (pid : Int) (n w : Nat) :
    ((∀ j, j < n → os.waitRet (w + j) = 0) ∧ pollLoop os pid n w = (rounds pid n, w + n)) ∨
    (∃ k, k < n ∧ (∀ j, j < k → os.waitRet (w + j) = 0) ∧ os.waitRet (w + k) ≠ 0 ∧
      pollLoop os pid n w =
        (rounds pid k ++ [⟨Sys.waitpid pid WNOHANG, os.waitRet (w + k)⟩], w + k + 1)) := by
  by_cases hz : ∀ j, j < n → os.waitRet (w + j) = 0
  · exact Or.inl ⟨hz, pollLoop_all_zero os pid n w hz⟩
  · right
    have hex : ∃ k, k < n ∧ os.waitRet (w + k) ≠ 0 := by
      by_contra hne
      apply hz
      intro j hj
      by_contra hj0
      exact hne ⟨j, hj, hj0⟩
    classical
    refine ⟨Nat.find hex, (Nat.find_spec hex).1, ?_, (Nat.find_spec hex).2, ?_⟩
    · intro j hj
      by_contra hj0
      exact Nat.find_min hex hj ⟨lt_trans hj (Nat.find_spec hex).1, hj0⟩
    · apply pollLoop_break os pid _ n w (Nat.find_spec hex).1 _ (Nat.find_spec hex).2
      intro j hj
      by_contra hj0
      exact Nat.find_min hex hj ⟨lt_trans hj (Nat.find_spec hex).1, hj0⟩

theorem rounds_filter_check (pid : Int) (k : Nat) :
    ((rounds pid k).filter (isCheck pid)).length = k := by
  induction k with
  | zero => simp [rounds]
  | succ k ih => simp [rounds, isCheck, ih]

theorem rounds_no_forceKill (pid : Int) (k : Nat) :
    ∀ e ∈ rounds pid k, isForceKill pid e = false := by
  induction k with
  | zero => simp [rounds]
  | succ k ih =>
    intro e he
    simp only [rounds, List.mem_cons] at he
    rcases he with rfl | rfl | he
    · simp [isForceKill]
    · simp [isForceKill]
    · exact ih e he

theorem pollLoop_no_forceKill (os : ProcOS) (pid : Int) :
    ∀ n w, ∀ e ∈ (pollLoop os pid n w).1, isForceKill pid e = false := by
  intro n w e he
  rcases pollLoop_shape os pid n w with ⟨_, h⟩ | ⟨k, _, _, _, h⟩
  · rw [h] at he
    exact rounds_no_forceKill pid n e he
  · rw [h] at he
    simp only [List.mem_append, List.mem_singleton] at he
    rcases he with he | rfl
    · exact rounds_no_forceKill pid k e he
    · simp [isForceKill]

/-! ## The terminator: claims -/

/-- C1: for every process identifier `pid ≤ 0` the terminator returns -1 and its
trace is empty: no `kill`, no `waitpid` and no `usleep` is called. -/
theorem kill_rejects_nonpositive (os : ProcOS) (pid : Int) (h : pid ≤ 0) :
    (nativeKillProcess os pid).1 = -1 ∧ (nativeKillProcess os pid).2 = [] := by
  simp [nativeKillProcess, h]

/-- C1 at the identifier -5. -/
theorem kill_rejects_nonpositive_witness :
    (-5 : Int) ≤ 0 ∧
      (nativeKillProcess (scriptedOS [] [] 0) (-5)).1 = -1 ∧
      (nativeKillProcess (scriptedOS [] [] 0) (-5)).2 = [] :=
  ⟨by decide, kill_rejects_nonpositive (scriptedOS [] [] 0) (-5) (by decide)⟩

/-- C8: for every `pid > 0` the first call is `kill(pid, SIGTERM)`; the terminator
returns -1 exactly when that call returns a non-zero value, in which case the trace
holds nothing else (no `waitpid`, no `usleep`, no `SIGKILL`); when the call returns 0
the terminator returns 0. -/
theorem kill_fails_iff_sigterm_fails (os : ProcOS) (pid : Int) (hpid : 0 < pid) :
    (nativeKillProcess os pid).2.head? = some ⟨Sys.kill pid SIGTERM, os.killRet 0⟩ ∧
    ((nativeKillProcess os pid).1 = -1 ↔ os.killRet 0 ≠ 0) ∧
    (os.killRet 0 ≠ 0 →
      (nativeKillProcess os pid).2 = [⟨Sys.kill pid SIGTERM, os.killRet 0⟩]) ∧
    (os.killRet 0 = 0 → (nativeKillProcess os pid).1 = 0) := by
  have hp : ¬ pid ≤ 0 := not_le.mpr hpid
  by_cases hk : os.killRet 0 = 0
  · by_cases hf : os.waitRet (pollLoop os pid 10 0).2 = 0
    · simp [nativeKillProcess, hp, hk, hf]
    · simp [nativeKillProcess, hp, hk, hf]
  · simp [nativeKillProcess, hp, hk]

/-- C8 at process 1234 when the graceful signal fails. -/
theorem kill_fails_iff_sigterm_fails_witness :
    (0 : Int) < 1234 ∧
    (nativeKillProcess (scriptedOS [-1] [] 0) 1234).2.head?
      = some ⟨Sys.kill 1234 SIGTERM, (scriptedOS [-1] [] 0).killRet 0⟩ ∧
    ((nativeKillProcess (scriptedOS [-1] [] 0) 1234).1 = -1 ↔
      (scriptedOS [-1] [] 0).killRet 0 ≠ 0) ∧
    ((scriptedOS [-1] [] 0).killRet 0 ≠ 0 →
      (nativeKillProcess (scriptedOS [-1] [] 0) 1234).2
        = [⟨Sys.kill 1234 SIGTERM, (scriptedOS [-1] [] 0).killRet 0⟩]) ∧
    ((scriptedOS [-1] [] 0).killRet 0 = 0 →
      (nativeKillProcess (scriptedOS [-1] [] 0) 1234).1 = 0) :=
  ⟨by decide, kill_fails_iff_sigterm_fails (scriptedOS [-1] [] 0) 1234 (by decide)⟩

/-- The terminator when the graceful signal cannot be delivered. -/
theorem kill_trace_undelivered (os : ProcOS) (pid : Int) (hpid : 0 < pid)
    (hk : os.killRet 0 ≠ 0) :
    nativeKillProcess os pid = (-1, [⟨Sys.kill pid SIGTERM, os.killRet 0⟩]) := by
  have hp : ¬ pid ≤ 0 := not_le.mpr hpid
  simp [nativeKillProcess, hp, hk]

/-- The trace of the terminator once the graceful signal is delivered, according to the
result `f` of the check made after the poll loop. -/
theorem kill_trace_delivered (os : ProcOS) (pid : Int) (hpid : 0 < pid)
    (hk : os.killRet 0 = 0) :
    (nativeKillProcess os pid).1 = 0 ∧
    (nativeKillProcess os pid).2 =
      ⟨Sys.kill pid SIGTERM, 0⟩ :: ((pollLoop os pid 10 0).1 ++
        ⟨Sys.waitpid pid WNOHANG, os.waitRet (pollLoop os pid 10 0).2⟩ ::
          (if os.waitRet (pollLoop os pid 10 0).2 = 0 then
            [⟨Sys.kill pid SIGKILL, os.killRet 1⟩,
             ⟨Sys.waitpid pid 0, os.waitRet ((pollLoop os pid 10 0).2 + 1)⟩]
           else [])) := by
  have hp : ¬ pid ≤ 0 := not_le.mpr hpid
  by_cases hf : os.waitRet (pollLoop os pid 10 0).2 = 0
  · simp [nativeKillProcess, hp, hk, hf]
  · simp [nativeKillProcess, hp, hk, hf]

/-- C5: for every `pid > 0`, if the graceful signal is delivered, the check number `i`
of the poll loop (`i < 10`, the earlier ones having reported a running process) returns
`pid`, and the next `waitpid` does not report a running child, then the terminator
returns 0 and `kill(pid, SIGKILL)` does not occur in its trace, which is the graceful
signal, `i` rounds of check and delay, the check that returned `pid` and one more
check. -/
theorem graceful_exit_no_sigkill (os : ProcOS) (pid : Int) (hpid : 0 < pid)
    (hk : os.killRet 0 = 0) (i : Nat) (hi : i < 10)
    (hprev : ∀ j, j < i → os.waitRet j = 0) (hexit : os.waitRet i = pid)
    (hgone : os.waitRet (i + 1) ≠ 0) :
    (nativeKillProcess os pid).1 = 0 ∧
    (∀ e ∈ (nativeKillProcess os pid).2, e.call ≠ Sys.kill pid SIGKILL) ∧
    (nativeKillProcess os pid).2 =
      ⟨Sys.kill pid SIGTERM, 0⟩ :: (rounds pid i ++
        [⟨Sys.waitpid pid WNOHANG, pid⟩, ⟨Sys.waitpid pid WNOHANG, os.waitRet (i + 1)⟩]) := by
  have hne : os.waitRet (0 + i) ≠ 0 := by
    rw [Nat.zero_add, hexit]; exact ne_of_gt hpid
  have hprev0 : ∀ j, j < i → os.waitRet (0 + j) = 0 := by
    intro j hj; rw [Nat.zero_add]; exact hprev j hj
  have hl := pollLoop_break os pid i 10 0 hi hprev0 hne
  simp only [Nat.zero_add] at hl
  obtain ⟨h1, h2⟩ := kill_trace_delivered os pid hpid hk
  have htr : (nativeKillProcess os pid).2 =
      ⟨Sys.kill pid SIGTERM, 0⟩ :: (rounds pid i ++
        [⟨Sys.waitpid pid WNOHANG, pid⟩, ⟨Sys.waitpid pid WNOHANG, os.waitRet (i + 1)⟩]) := by
    rw [h2, hl]
    simp [hgone, hexit]
  refine ⟨h1, ?_, htr⟩
  intro e he
  rw [htr] at he
  simp only [List.mem_cons, List.mem_append, List.mem_singleton, List.not_mem_nil,
    or_false] at he
  rcases he with rfl | he | rfl | rfl
  · simp [SIGTERM, SIGKILL]
  · have := rounds_no_forceKill pid i e he
    simpa [isForceKill] using this
  · simp
  · simp

/-- C5 at process 1234 when the third check of the poll loop returns 1234 and the
following `waitpid` fails. -/
theorem graceful_exit_no_sigkill_witness :
    (0 : Int) < 1234 ∧ (scriptedOS [0] [0, 0, 1234] (-1)).killRet 0 = 0 ∧
    (nativeKillProcess (scriptedOS [0] [0, 0, 1234] (-1)) 1234).1 = 0 ∧
    (∀ e ∈ (nativeKillProcess (scriptedOS [0] [0, 0, 1234] (-1)) 1234).2,
      e.call ≠ Sys.kill 1234 SIGKILL) ∧
    (nativeKillProcess (scriptedOS [0] [0, 0, 1234] (-1)) 1234).2 =
      ⟨Sys.kill 1234 SIGTERM, 0⟩ :: (rounds 1234 2 ++
        [⟨Sys.waitpid 1234 WNOHANG, 1234⟩,
         ⟨Sys.waitpid 1234 WNOHANG, (scriptedOS [0] [0, 0, 1234] (-1)).waitRet (2 + 1)⟩]) :=
  ⟨by decide, by decide,
    graceful_exit_no_sigkill (scriptedOS [0] [0, 0, 1234] (-1)) 1234 (by decide) (by decide)
      2 (by decide) (by decide) (by decide) (by decide)⟩

/-- C3, refuted as stated: the graceful signal is delivered to process 1234 and every
`waitpid` fails with -1 (the process is not a child of the caller); the terminator returns
0 although no `waitpid` on 1234 returned 1234. -/
theorem kill_zero_without_reap :
    (0 : Int) < 1234 ∧
    (nativeKillProcess (scriptedOS [0] [] (-1)) 1234).1 = 0 ∧
    ¬ ∃ e ∈ (nativeKillProcess (scriptedOS [0] [] (-1)) 1234).2,
        isWait 1234 e = true ∧ e.result = 1234 := by
  decide

/-- C3, amended: for every `pid > 0` and every behaviour of the operating system, whenever
the terminator returns 0 the graceful signal was delivered and the trace ends either with a
non-blocking `waitpid` on `pid` that returned a non-zero value (`pid` or a failure), or with
a non-blocking `waitpid` that returned 0, `kill(pid, SIGKILL)` and one blocking `waitpid` on
`pid` whose result is not examined. -/
theorem kill_zero_means_waited (os : ProcOS) (pid : Int) (hpid : 0 < pid)
    (h : (nativeKillProcess os pid).1 = 0) :
    os.killRet 0 = 0 ∧
    ((∃ pre f, f ≠ 0 ∧
        (nativeKillProcess os pid).2 = pre ++ [⟨Sys.waitpid pid WNOHANG, f⟩]) ∨
     (∃ pre r1 r2,
        (nativeKillProcess os pid).2 = pre ++
          [⟨Sys.waitpid pid WNOHANG, 0⟩, ⟨Sys.kill pid SIGKILL, r1⟩,
           ⟨Sys.waitpid pid 0, r2⟩])) := by
  have hk : os.killRet 0 = 0 := by
    by_contra hk
    rw [kill_trace_undelivered os pid hpid hk] at h
    simp at h
  refine ⟨hk, ?_⟩
  obtain ⟨_, h2⟩ := kill_trace_delivered os pid hpid hk
  by_cases hf : os.waitRet (pollLoop os pid 10 0).2 = 0
  · right
    refine ⟨⟨Sys.kill pid SIGTERM, 0⟩ :: (pollLoop os pid 10 0).1, os.killRet 1,
      os.waitRet ((pollLoop os pid 10 0).2 + 1), ?_⟩
    rw [h2]
    simp [hf]
  · left
    refine ⟨⟨Sys.kill pid SIGTERM, 0⟩ :: (pollLoop os pid 10 0).1,
      os.waitRet (pollLoop os pid 10 0).2, hf, ?_⟩
    rw [h2]
    simp [hf]

/-- C3, amended, at process 1234 when every `waitpid` fails. -/
theorem kill_zero_means_waited_witness :
    (0 : Int) < 1234 ∧ (nativeKillProcess (scriptedOS [0] [] (-1)) 1234).1 = 0 ∧
    ((scriptedOS [0] [] (-1)).killRet 0 = 0 ∧
    ((∃ pre f, f ≠ 0 ∧
        (nativeKillProcess (scriptedOS [0] [] (-1)) 1234).2
          = pre ++ [⟨Sys.waitpid 1234 WNOHANG, f⟩]) ∨
     (∃ pre r1 r2,
        (nativeKillProcess (scriptedOS [0] [] (-1)) 1234).2 = pre ++
          [⟨Sys.waitpid 1234 WNOHANG, 0⟩, ⟨Sys.kill 1234 SIGKILL, r1⟩,
           ⟨Sys.waitpid 1234 0, r2⟩]))) :=
  ⟨by decide, by decide,
    kill_zero_means_waited (scriptedOS [0] [] (-1)) 1234 (by decide) (by decide)⟩

/-- C4, refuted as stated: process 1234 is still running at all eleven checks, the
terminator escalates, `kill(1234, SIGKILL)` returns -1, and the terminator returns 0,
not -1. -/
theorem sigkill_failure_not_surfaced :
    (0 : Int) < 1234 ∧
    (⟨Sys.kill 1234 SIGKILL, -1⟩ : Event) ∈
      (nativeKillProcess (scriptedOS [0, -1] [0, 0, 0, 0, 0, 0, 0, 0, 0, 0, 0] (-1)) 1234).2 ∧
    (nativeKillProcess (scriptedOS [0, -1] [0, 0, 0, 0, 0, 0, 0, 0, 0, 0, 0] (-1)) 1234).1 = 0 ∧
    (nativeKillProcess (scriptedOS [0, -1] [0, 0, 0, 0, 0, 0, 0, 0, 0, 0, 0] (-1)) 1234).1 ≠ -1 := by
  decide

/-- C4, amended: for every `pid > 0`, if the terminator escalates (`kill(pid, SIGKILL)`
occurs in its trace) then, whatever that call returns, the terminator makes one blocking
`waitpid` on `pid` right after it and returns 0; the result of the forced signal is not
examined. -/
theorem escalation_returns_zero (os : ProcOS) (pid : Int) (hpid : 0 < pid)
    (hesc : ∃ e ∈ (nativeKillProcess os pid).2, e.call = Sys.kill pid SIGKILL) :
    (nativeKillProcess os pid).1 = 0 ∧
    ∃ pre r2, (nativeKillProcess os pid).2 = pre ++
      [⟨Sys.kill pid SIGKILL, os.killRet 1⟩, ⟨Sys.waitpid pid 0, r2⟩] := by
  obtain ⟨e, he, hcall⟩ := hesc
  have hk : os.killRet 0 = 0 := by
    by_contra hk
    rw [kill_trace_undelivered os pid hpid hk] at he
    have he : e = ⟨Sys.kill pid SIGTERM, os.killRet 0⟩ := List.mem_singleton.mp he
    rw [he] at hcall
    simp [SIGTERM, SIGKILL] at hcall
  obtain ⟨h1, h2⟩ := kill_trace_delivered os pid hpid hk
  refine ⟨h1, ?_⟩
  by_cases hf : os.waitRet (pollLoop os pid 10 0).2 = 0
  · refine ⟨⟨Sys.kill pid SIGTERM, 0⟩ :: ((pollLoop os pid 10 0).1 ++
      [⟨Sys.waitpid pid WNOHANG, 0⟩]), os.waitRet ((pollLoop os pid 10 0).2 + 1), ?_⟩
    rw [h2]
    simp [hf]
  · exfalso
    rw [h2] at he
    simp only [hf, if_false, List.mem_cons, List.mem_append, List.not_mem_nil,
      or_false] at he
    rcases he with rfl | he | rfl
    · simp [SIGTERM, SIGKILL] at hcall
    · have := pollLoop_no_forceKill os pid 10 0 e he
      simp [isForceKill, hcall] at this
    · simp at hcall

/-- C4, amended, at process 1234 when the forced signal fails. -/
theorem escalation_returns_zero_witness :
    (∃ e ∈ (nativeKillProcess
        (scriptedOS [0, -1] [0, 0, 0, 0, 0, 0, 0, 0, 0, 0, 0] (-1)) 1234).2,
      e.call = Sys.kill 1234 SIGKILL) ∧
    (nativeKillProcess
        (scriptedOS [0, -1] [0, 0, 0, 0, 0, 0, 0, 0, 0, 0, 0] (-1)) 1234).1 = 0 ∧
    ∃ pre r2, (nativeKillProcess
        (scriptedOS [0, -1] [0, 0, 0, 0, 0, 0, 0, 0, 0, 0, 0] (-1)) 1234).2 = pre ++
      [⟨Sys.kill 1234 SIGKILL,
        (scriptedOS [0, -1] [0, 0, 0, 0, 0, 0, 0, 0, 0, 0, 0] (-1)).killRet 1⟩,
       ⟨Sys.waitpid 1234 0, r2⟩] :=
  ⟨by decide,
    escalation_returns_zero (scriptedOS [0, -1] [0, 0, 0, 0, 0, 0, 0, 0, 0, 0, 0] (-1)) 1234
      (by decide) (by decide)⟩

/-- C10, refuted as stated: when process 1234 is still running at every check, the
terminator makes eleven non-blocking checks before it sends the forced signal: ten in
the poll loop, each followed by the delay, and one more after the loop. -/
theorem eleven_checks_before_sigkill :
    (0 : Int) < 1234 ∧
    (nativeKillProcess (scriptedOS [0, 0] [0, 0, 0, 0, 0, 0, 0, 0, 0, 0, 0] 1234) 1234).2 =
      ⟨Sys.kill 1234 SIGTERM, 0⟩ :: (rounds 1234 10 ++
        [⟨Sys.waitpid 1234 WNOHANG, 0⟩, ⟨Sys.kill 1234 SIGKILL, 0⟩,
         ⟨Sys.waitpid 1234 0, 1234⟩]) ∧
    ((⟨Sys.kill 1234 SIGTERM, 0⟩ :: (rounds 1234 10 ++
        [⟨Sys.waitpid 1234 WNOHANG, 0⟩])).filter (isCheck 1234)).length = 11 ∧
    ¬ ((nativeKillProcess (scriptedOS [0, 0] [0, 0, 0, 0, 0, 0, 0, 0, 0, 0, 0] 1234)
        1234).2.filter (isCheck 1234)).length ≤ 10 := by
  decide

/-- C10, amended: for every `pid > 0` and every behaviour of the operating system, the
terminator makes at most 11 non-blocking exit checks.  After a delivered graceful signal
its trace is: `k ≤ 10` rounds of the poll loop, each a check that returns 0 followed by
`usleep(100000)`; then, only when `k < 10`, the check that returned a non-zero value and
ended the loop; then one final check, with no delay after it; and, exactly when that
final check returns 0, `kill(pid, SIGKILL)` and a blocking `waitpid`. -/
theorem kill_poll_budget (os : ProcOS) (pid : Int) (hpid : 0 < pid) :
    ((nativeKillProcess os pid).2.filter (isCheck pid)).length ≤ 11 ∧
    (os.killRet 0 = 0 →
      ∃ k brk f esc, k ≤ 10 ∧
        (nativeKillProcess os pid).2 =
          ⟨Sys.kill pid SIGTERM, 0⟩ ::
            (rounds pid k ++ brk ++ ⟨Sys.waitpid pid WNOHANG, f⟩ :: esc) ∧
        ((k = 10 ∧ brk = []) ∨
          (k < 10 ∧ ∃ r, r ≠ 0 ∧ brk = [⟨Sys.waitpid pid WNOHANG, r⟩])) ∧
        ((f = 0 ∧ ∃ r1 r2,
            esc = [⟨Sys.kill pid SIGKILL, r1⟩, ⟨Sys.waitpid pid 0, r2⟩]) ∨
          (f ≠ 0 ∧ esc = []))) := by
  have hshape : os.killRet 0 = 0 →
      ∃ k brk f esc, k ≤ 10 ∧
        (nativeKillProcess os pid).2 =
          ⟨Sys.kill pid SIGTERM, 0⟩ ::
            (rounds pid k ++ brk ++ ⟨Sys.waitpid pid WNOHANG, f⟩ :: esc) ∧
        ((k = 10 ∧ brk = []) ∨
          (k < 10 ∧ ∃ r, r ≠ 0 ∧ brk = [⟨Sys.waitpid pid WNOHANG, r⟩])) ∧
        ((f = 0 ∧ ∃ r1 r2,
            esc = [⟨Sys.kill pid SIGKILL, r1⟩, ⟨Sys.waitpid pid 0, r2⟩]) ∨
          (f ≠ 0 ∧ esc = [])) := by
    intro hk
    obtain ⟨_, h2⟩ := kill_trace_delivered os pid hpid hk
    have hesc : ∀ w : Nat,
        (os.waitRet w = 0 ∧ ∃ r1 r2,
          (if os.waitRet w = 0 then
            [(⟨Sys.kill pid SIGKILL, os.killRet 1⟩ : Event),
             ⟨Sys.waitpid pid 0, os.waitRet (w + 1)⟩]
           else []) = [⟨Sys.kill pid SIGKILL, r1⟩, ⟨Sys.waitpid pid 0, r2⟩]) ∨
        (os.waitRet w ≠ 0 ∧
          (if os.waitRet w = 0 then
            [(⟨Sys.kill pid SIGKILL, os.killRet 1⟩ : Event),
             ⟨Sys.waitpid pid 0, os.waitRet (w + 1)⟩]
           else []) = []) := by
      intro w
      by_cases hf : os.waitRet w = 0
      · exact Or.inl ⟨hf, os.killRet 1, os.waitRet (w + 1), by simp [hf]⟩
      · exact Or.inr ⟨hf, by simp [hf]⟩
    rcases pollLoop_shape os pid 10 0 with ⟨_, hl⟩ | ⟨k, hk10, _, hne, hl⟩
    · refine ⟨10, [], os.waitRet (pollLoop os pid 10 0).2, _, le_refl 10, ?_,
        Or.inl ⟨rfl, rfl⟩, hesc _⟩
      rw [h2]
      simp [hl]
    · refine ⟨k, [⟨Sys.waitpid pid WNOHANG, os.waitRet (0 + k)⟩],
        os.waitRet (pollLoop os pid 10 0).2, _, le_of_lt hk10, ?_,
        Or.inr ⟨hk10, os.waitRet (0 + k), hne, rfl⟩, hesc _⟩
      rw [h2]
      simp [hl]
  refine ⟨?_, hshape⟩
  by_cases hk : os.killRet 0 = 0
  · obtain ⟨k, brk, f, esc, hk10, htr, hbrk, hesc⟩ := hshape hk
    rw [htr]
    have hc0 : isCheck pid ⟨Sys.kill pid SIGTERM, 0⟩ = false := by simp [isCheck]
    have hc1 : isCheck pid ⟨Sys.waitpid pid WNOHANG, f⟩ = true := by simp [isCheck]
    have hescLen : (esc.filter (isCheck pid)).length = 0 := by
      rcases hesc with ⟨_, r1, r2, rfl⟩ | ⟨_, rfl⟩
      · simp [isCheck, WNOHANG]
      · simp
    have hbrkLen : k + (brk.filter (isCheck pid)).length ≤ 10 := by
      rcases hbrk with ⟨rfl, rfl⟩ | ⟨hlt, r, _, rfl⟩
      · simp
      · simp [isCheck]; omega
    have hr := rounds_filter_check pid k
    rw [List.filter_cons_of_neg (by simp [hc0]), List.filter_append, List.filter_append,
      List.filter_cons_of_pos hc1]
    simp only [List.length_append, List.length_cons]
    omega
  · rw [kill_trace_undelivered os pid hpid hk]
    simp [isCheck]

/-- C10, amended, at process 1234 when it is still running at every check. -/
theorem kill_poll_budget_witness :
    (0 : Int) < 1234 ∧
    ((nativeKillProcess (scriptedOS [0, 0] [0, 0, 0, 0, 0, 0, 0, 0, 0, 0, 0] 1234)
      1234).2.filter (isCheck 1234)).length = 11 ∧
    ((nativeKillProcess (scriptedOS [0, 0] [0, 0, 0, 0, 0, 0, 0, 0, 0, 0, 0] 1234)
      1234).2.filter (isCheck 1234)).length ≤ 11 :=
  ⟨by decide, by decide,
    (kill_poll_budget (scriptedOS [0, 0] [0, 0, 0, 0, 0, 0, 0, 0, 0, 0, 0] 1234) 1234
      (by decide)).1⟩

/-! ## Lemmas on the launcher -/

theorem put_apply (t : FdTable) (fd : Int) (e : Option FdEntry) (j : Int) :
    (t.put fd e) j = if j = fd then e else t j := rfl

theorem closeLoop_apply (tunFd : Int) :
    ∀ (n : Nat) (i : Int) (t : FdTable) (j : Int),
      closeLoop tunFd n i t j = if i ≤ j ∧ j < i + n ∧ j ≠ tunFd then none else t j := by
  intro n
  induction n with
  | zero =>
    intro i t j
    have : ¬ (i ≤ j ∧ j < i + ((0 : Nat) : Int) ∧ j ≠ tunFd) := by
      intro h; omega
    simp only [closeLoop, this, if_false]
  | succ n ih =>
    intro i t j
    rw [closeLoop, ih]
    have hc : ((n + 1 : Nat) : Int) = (n : Int) + 1 := by push_cast; rfl
    rw [hc]
    by_cases hit : i = tunFd
    · subst hit
      simp only [ne_eq, not_true_eq_false, if_false]
      split_ifs <;> first | rfl | omega
    · simp only [ne_eq, hit, not_false_eq_true, if_true, closeFd, put_apply]
      split_ifs <;> first | rfl | omega

theorem cstr_of_no_nul (l : List Nat) (h : ∀ b ∈ l, b ≠ 0) : cstr l = l := by
  unfold cstr
  rw [List.takeWhile_eq_self_iff]
  intro b hb
  simpa using h b hb

theorem cstr_append_nul (l r : List Nat) (h : ∀ b ∈ l, b ≠ 0) : cstr (l ++ 0 :: r) = l := by
  unfold cstr
  rw [List.takeWhile_append_of_pos (by intro b hb; simpa using h b hb)]
  simp

theorem uninit_drop (junk : Nat → Nat) : (uninit junk 512).drop (512 - 1) = [junk 511] := by
  have h : uninit junk 512 = (List.range 511).map junk ++ [junk 511] := by
    unfold uninit
    rw [show (512 : Nat) = 511 + 1 from rfl, List.range_succ, List.map_append]
    rfl
  have hl : ((List.range 511).map junk).length = 512 - 1 := by simp
  rw [h, ← hl, List.drop_left]

/-- The string held in a 512-byte buffer after `strncpy(buf, src, sizeof(buf) - 1);
buf[sizeof(buf) - 1] = 0` is the first 511 bytes of the source string. -/
theorem copied_string (junk : Nat → Nat) (src : List Nat) (h : ∀ b ∈ src, b ≠ 0) :
    cstr ((strncpy (uninit junk 512) src (512 - 1)).set (512 - 1) 0) = src.take 511 := by
  unfold strncpy
  rw [cstr_of_no_nul src h, uninit_drop]
  have hlen : (List.take (512 - 1) src ++ List.replicate (512 - 1 - src.length) 0).length
      = 512 - 1 := by
    simp only [List.length_append, List.length_take, List.length_replicate]
    omega
  rw [List.set_append_right _ _ (by rw [hlen]), hlen]
  simp only [Nat.sub_self, List.set_cons_zero]
  have htake : ∀ b ∈ List.take 511 src, b ≠ 0 := fun b hb => h b (List.mem_of_mem_take hb)
  cases hk : 512 - 1 - src.length with
  | zero =>
    simp only [List.replicate_zero, List.append_nil]
    exact cstr_append_nul _ [] htake
  | succ k =>
    rw [List.replicate_succ, List.append_assoc]
    exact cstr_append_nul _ _ htake

theorem launch_child (os : LaunchOS) (exe cfg : List Nat) (tunFd : Int)
    (hfork : os.forkRet = 0) :
    nativeStartWithTunFd os (some exe) (some cfg) tunFd =
      LaunchResult.child
        [⟨Sys.releaseStringUTFChars PathArg.exe, 0⟩,
         ⟨Sys.releaseStringUTFChars PathArg.config, 0⟩,
         ⟨Sys.fork, 0⟩]
        (childImage os.child
          ((strncpy (uninit os.junkExe 512) exe (512 - 1)).set (512 - 1) 0)
          ((strncpy (uninit os.junkCfg 512) cfg (512 - 1)).set (512 - 1) 0) tunFd) := by
  simp [nativeStartWithTunFd, hfork]

theorem launch_child_strings (os : LaunchOS) (exe cfg : List Nat) (tunFd : Int)
    (hexe : ∀ b ∈ exe, b ≠ 0) (hcfg : ∀ b ∈ cfg, b ≠ 0) (hfork : os.forkRet = 0) :
    ∃ c, (nativeStartWithTunFd os (some exe) (some cfg) tunFd).exec? = some c ∧
      c.path = exe.take 511 ∧ c.argv = [exe.take 511, cfg.take 511] := by
  rw [launch_child os exe cfg tunFd hfork]
  refine ⟨_, rfl, ?_, ?_⟩
  · show cstr _ = _
    exact copied_string os.junkExe exe hexe
  · show [cstr _, cstr _] = _
    rw [copied_string os.junkExe exe hexe, copied_string os.junkCfg cfg hcfg]

theorem clear_cloexec_flags (n : Nat) :
    (Int.land (n : Int) (Int.lnot FD_CLOEXEC)).toNat.testBit 0 = false ∧
    ∀ k, k ≠ 0 → (Int.land (n : Int) (Int.lnot FD_CLOEXEC)).toNat.testBit k = n.testBit k := by
  have h : Int.land (n : Int) (Int.lnot FD_CLOEXEC) = ((Nat.ldiff n 1 : Nat) : Int) := rfl
  rw [h, Int.toNat_natCast]
  constructor
  · rw [Nat.testBit_ldiff]
    simp
  · intro k hk
    rw [Nat.testBit_ldiff]
    have h1 : Nat.testBit 1 k = false := by
      cases hb : Nat.testBit 1 k with
      | false => rfl
      | true => exact absurd (Nat.testBit_one_eq_true_iff_self_eq_zero.mp hb) hk
    simp [h1]

theorem clearCloexec_open (t : FdTable) (tunFd : Int) (e : FdEntry)
    (hopen : t tunFd = some e) (j : Int) :
    clearCloexec t tunFd j =
      if j = tunFd then
        some ⟨e.file, (Int.land (e.flags : Int) (Int.lnot FD_CLOEXEC)).toNat⟩
      else t j := by
  have hflags : fcntlGetFd t tunFd = (e.flags : Int) := by simp [fcntlGetFd, hopen]
  have hge : (e.flags : Int) ≥ 0 := Int.natCast_nonneg _
  simp only [clearCloexec, hflags, hge, if_true, fcntlSetFd, hopen, put_apply]

theorem redirectStdin_apply (t : FdTable) (tunFd slot : Int) (file : Nat)
    (htun : (t tunFd).isSome = true) (j : Int) (hj : j ≠ 0) :
    redirectStdin t tunFd slot file j = t j := by
  unfold redirectStdin openFile
  by_cases hs : 0 ≤ slot ∧ (t slot).isNone = true
  · have hne : slot ≠ tunFd := by
      intro h
      rw [h] at hs
      have := hs.2
      rw [Option.isNone_iff_eq_none] at this
      rw [this] at htun
      simp at htun
    have hnone : t slot = none := Option.isNone_iff_eq_none.mp hs.2
    by_cases h0 : slot = 0
    · subst h0
      simp [hs, put_apply, hj]
    · have hge : slot ≥ 0 := hs.1
      simp only [hs, and_self, if_true, hge, ne_eq, h0, not_false_eq_true, hne, closeFd,
        dup2, put_apply]
      by_cases hjs : j = slot
      · simp [hjs, hnone]
      · simp [hjs, hj]
  · rw [if_neg hs]
    simp

/-! ## The launcher: claims -/

/-- C7, refuted as stated: with an executable path of 512 bytes `a` the child calls
`execv` with a path of 511 bytes, which is not the caller's string. -/
theorem long_path_truncated :
    (∀ b ∈ List.replicate 512 97, b ≠ 0) ∧
    ∃ c, (nativeStartWithTunFd (sampleOS 0 7 16) (some (List.replicate 512 97))
        (some [47, 99]) 5).exec? = some c ∧
      c.path = List.replicate 511 97 ∧ c.path ≠ List.replicate 512 97 := by
  have h0 : ∀ b ∈ List.replicate 512 97, b ≠ 0 := by
    intro b hb
    rw [List.eq_of_mem_replicate hb]
    decide
  refine ⟨h0, ?_⟩
  obtain ⟨c, hc, hp, _⟩ := launch_child_strings (sampleOS 0 7 16) (List.replicate 512 97)
    [47, 99] 5 h0 (by decide) rfl
  have hp2 : c.path = List.replicate 511 97 := by
    rw [hp, List.take_replicate]
    rfl
  refine ⟨c, hc, hp2, ?_⟩
  rw [hp2]
  intro h
  have hl := congrArg List.length h
  rw [List.length_replicate, List.length_replicate] at hl
  omega

/-- C7, amended: for every pair of path strings obtained from the caller, the child calls
`execv` with a program path equal to the first 511 bytes of `executablePath` and the
argument vector made of the first 511 bytes of `executablePath` and the first 511 bytes
of `configPath`; these are the caller's strings, byte for byte, when both are at most 511
bytes long. -/
theorem exec_strings (os : LaunchOS) (exe cfg : List Nat) (tunFd : Int)
    (hexe : ∀ b ∈ exe, b ≠ 0) (hcfg : ∀ b ∈ cfg, b ≠ 0) (hfork : os.forkRet = 0) :
    (∃ c, (nativeStartWithTunFd os (some exe) (some cfg) tunFd).exec? = some c ∧
      c.path = exe.take 511 ∧ c.argv = [exe.take 511, cfg.take 511]) ∧
    (exe.length ≤ 511 → cfg.length ≤ 511 →
      ∃ c, (nativeStartWithTunFd os (some exe) (some cfg) tunFd).exec? = some c ∧
        c.path = exe ∧ c.argv = [exe, cfg]) := by
  obtain ⟨c, hc, hp, ha⟩ := launch_child_strings os exe cfg tunFd hexe hcfg hfork
  refine ⟨⟨c, hc, hp, ha⟩, ?_⟩
  intro h1 h2
  refine ⟨c, hc, ?_, ?_⟩
  · rw [hp, List.take_of_length_le h1]
  · rw [ha, List.take_of_length_le h1, List.take_of_length_le h2]

/-- C7, amended, at the paths `/bin/true` and `/tmp/cfg`. -/
theorem exec_strings_witness :
    (∃ c, (nativeStartWithTunFd (sampleOS 0 7 16)
        (some [47, 98, 105, 110, 47, 116, 114, 117, 101])
        (some [47, 116, 109, 112, 47, 99, 102, 103]) 5).exec? = some c ∧
      c.path = [47, 98, 105, 110, 47, 116, 114, 117, 101] ∧
      c.argv = [[47, 98, 105, 110, 47, 116, 114, 117, 101],
                [47, 116, 109, 112, 47, 99, 102, 103]]) :=
  (exec_strings (sampleOS 0 7 16) [47, 98, 105, 110, 47, 116, 114, 117, 101]
    [47, 116, 109, 112, 47, 99, 102, 103] 5 (by decide) (by decide) rfl).2
    (by decide) (by decide)

/-- C9: the launcher returns -1 without calling `fork` (and without any call to the
operating system) whenever either path string cannot be obtained; when both are
obtained it returns -1 if `fork` returns a negative value and the positive value of `fork`
otherwise in the parent image, `fork` being in both cases the last call made in the
caller's process; in the child image (`fork` returned 0) nothing is returned to the
caller.  Hence every value returned is -1 or the positive result of `fork`. -/
theorem launch_return_value (os : LaunchOS) (exePath configPath : Option (List Nat))
    (tunFd : Int) :
    (exePath = none ∨ configPath = none →
      (nativeStartWithTunFd os exePath configPath tunFd).value? = some (-1) ∧
      ∀ e ∈ (nativeStartWithTunFd os exePath configPath tunFd).trace,
        e.call ≠ Sys.fork ∧ e.call.isOS = false) ∧
    (exePath ≠ none → configPath ≠ none →
      (os.forkRet < 0 →
        nativeStartWithTunFd os exePath configPath tunFd =
          LaunchResult.returned (-1)
            [⟨Sys.releaseStringUTFChars PathArg.exe, 0⟩,
             ⟨Sys.releaseStringUTFChars PathArg.config, 0⟩,
             ⟨Sys.fork, os.forkRet⟩]) ∧
      (0 < os.forkRet →
        nativeStartWithTunFd os exePath configPath tunFd =
          LaunchResult.returned os.forkRet
            [⟨Sys.releaseStringUTFChars PathArg.exe, 0⟩,
             ⟨Sys.releaseStringUTFChars PathArg.config, 0⟩,
             ⟨Sys.fork, os.forkRet⟩]) ∧
      (os.forkRet = 0 →
        (nativeStartWithTunFd os exePath configPath tunFd).value? = none)) ∧
    (∀ v, (nativeStartWithTunFd os exePath configPath tunFd).value? = some v →
      v = -1 ∨ (v = os.forkRet ∧ 0 < v)) := by
  cases exePath with
  | none =>
    cases configPath with
    | none => simp [nativeStartWithTunFd, LaunchResult.value?, LaunchResult.trace]
    | some cfg =>
      simp [nativeStartWithTunFd, LaunchResult.value?, LaunchResult.trace, Sys.isOS]
  | some exe =>
    cases configPath with
    | none =>
      simp [nativeStartWithTunFd, LaunchResult.value?, LaunchResult.trace, Sys.isOS]
    | some cfg =>
      rcases lt_trichotomy os.forkRet 0 with hneg | hzero | hpos
      · have h1 : ¬ 0 < os.forkRet := by omega
        have h2 : os.forkRet ≠ 0 := by omega
        simp [nativeStartWithTunFd, LaunchResult.value?, hneg, h1, h2]
      · simp [nativeStartWithTunFd, LaunchResult.value?, hzero]
      · have h1 : ¬ os.forkRet < 0 := by omega
        have h2 : os.forkRet ≠ 0 := by omega
        simp [nativeStartWithTunFd, LaunchResult.value?, hpos, h1, h2]

/-- C9 at a failing `fork`: -1 is returned and `fork` is the last call. -/
theorem launch_return_value_witness :
    nativeStartWithTunFd (sampleOS (-1) 7 16) (some [47]) (some [47, 99]) 5 =
      LaunchResult.returned (-1)
        [⟨Sys.releaseStringUTFChars PathArg.exe, 0⟩,
         ⟨Sys.releaseStringUTFChars PathArg.config, 0⟩,
         ⟨Sys.fork, (sampleOS (-1) 7 16).forkRet⟩] :=
  ((launch_return_value (sampleOS (-1) 7 16) (some [47]) (some [47, 99]) 5).2.1
    (by simp) (by simp)).1 (by decide)

/-- C2, refuted as stated: with an empty executable path, the configuration path
`/tmp/cfg` and descriptor 5, the launcher calls `fork` and returns the identifier 1234
that `fork` gave, not -1. -/
theorem empty_path_forks :
    (nativeStartWithTunFd (sampleOS 1234 7 1024) (some [])
      (some [47, 116, 109, 112, 47, 99, 102, 103]) 5).value? = some 1234 ∧
    (⟨Sys.fork, 1234⟩ : Event) ∈
      (nativeStartWithTunFd (sampleOS 1234 7 1024) (some [])
        (some [47, 116, 109, 112, 47, 99, 102, 103]) 5).trace ∧
    (nativeStartWithTunFd (sampleOS 1234 7 1024) (some [])
      (some [47, 116, 109, 112, 47, 99, 102, 103]) 5).value? ≠ some (-1) := by
  decide

/-- C2, amended: for every configuration path and descriptor, the launcher called with an
absent executable path (or an absent configuration path), that is one `GetStringUTFChars`
could not provide, returns -1 without calling `fork`; a path that is present and empty
is not rejected: `fork` is called, and the value of `fork` is returned when it is
positive. -/
theorem absent_path_rejected (os : LaunchOS) (p : Option (List Nat)) (q : List Nat)
    (tunFd : Int) :
    ((nativeStartWithTunFd os none p tunFd).value? = some (-1) ∧
      ∀ e ∈ (nativeStartWithTunFd os none p tunFd).trace, isFork e = false) ∧
    ((nativeStartWithTunFd os p none tunFd).value? = some (-1) ∧
      ∀ e ∈ (nativeStartWithTunFd os p none tunFd).trace, isFork e = false) ∧
    (∃ e ∈ (nativeStartWithTunFd os (some []) (some q) tunFd).trace, isFork e = true) ∧
    (∃ e ∈ (nativeStartWithTunFd os (some q) (some []) tunFd).trace, isFork e = true) ∧
    (0 < os.forkRet →
      (nativeStartWithTunFd os (some []) (some q) tunFd).value? = some os.forkRet ∧
      (nativeStartWithTunFd os (some q) (some []) tunFd).value? = some os.forkRet) := by
  have hfork : ∀ a b : List Nat,
      (nativeStartWithTunFd os (some a) (some b) tunFd).trace =
        [⟨Sys.releaseStringUTFChars PathArg.exe, 0⟩,
         ⟨Sys.releaseStringUTFChars PathArg.config, 0⟩,
         ⟨Sys.fork, os.forkRet⟩] := by
    intro a b
    simp only [nativeStartWithTunFd]
    split_ifs <;> rfl
  refine ⟨?_, ?_, ?_, ?_, ?_⟩
  · cases p <;> simp [nativeStartWithTunFd, LaunchResult.value?, LaunchResult.trace, isFork]
  · cases p <;> simp [nativeStartWithTunFd, LaunchResult.value?, LaunchResult.trace, isFork]
  · exact ⟨⟨Sys.fork, os.forkRet⟩, by rw [hfork]; simp, by simp [isFork]⟩
  · exact ⟨⟨Sys.fork, os.forkRet⟩, by rw [hfork]; simp, by simp [isFork]⟩
  · intro hpos
    have h1 : ¬ os.forkRet < 0 := by omega
    have h2 : os.forkRet ≠ 0 := by omega
    simp [nativeStartWithTunFd, LaunchResult.value?, h1, h2]

/-- C6, the code at a failing input: the source states "Close all FDs except stdin(0),
stdout(1), stderr(2), and the TUN FD", yet when the child inherits descriptors 0, 1, 2,
the tunnel on 5 and one more file on descriptor 2000, and `sysconf(_SC_OPEN_MAX)` returns
1024 (the limit was lowered after descriptor 2000 was opened), the closing loop stops at
1024 and descriptor 2000 is still open, besides the tunnel descriptor, when the child
calls `execv`. -/
theorem high_descriptor_left_open :
    (3 : Int) ≤ 5 ∧ ((sampleOS 0 2000 1024).child.table 5).isSome = true ∧
    ∃ c, (nativeStartWithTunFd (sampleOS 0 2000 1024) (some [47]) (some [47, 99]) 5).exec?
        = some c ∧
      (3 : Int) ≤ 2000 ∧ (2000 : Int) ≠ 5 ∧ c.table 2000 = some ⟨60, 1⟩ := by
  have h5 : (sampleOS 0 2000 1024).child.table 5 = some ⟨50, 1⟩ := by decide
  have key : ∀ eb cb,
      (childImage (sampleOS 0 2000 1024).child eb cb 5).table 2000 = some ⟨60, 1⟩ := by
    intro eb cb
    unfold childImage
    simp only []
    rw [redirectStdin_apply _ _ _ _ _ _ (by decide), closeLoop_apply,
      clearCloexec_open _ _ _ h5]
    · decide
    · rw [closeLoop_apply, clearCloexec_open _ _ _ h5]
      decide
  refine ⟨by decide, by decide, ?_⟩
  rw [launch_child (sampleOS 0 2000 1024) [47] [47, 99] 5 rfl]
  exact ⟨_, rfl, by decide, by decide, key _ _⟩

/-- The child's descriptor table at `execv` when the closing loop reaches every inherited
descriptor: for `tunFd ≥ 3` open at the call, `tunFd` is still open on the same file with
its close-on-exec flag cleared and its other descriptor flags unchanged, every other
descriptor `j ≥ 3` below the bound of the loop is closed, and when all inherited
descriptors lie below that bound no other descriptor `≥ 3` is open. -/
theorem child_table_below_bound (os : LaunchOS) (exe cfg : List Nat) (tunFd : Int)
    (e : FdEntry) (hfork : os.forkRet = 0) (h3 : 3 ≤ tunFd)
    (hopen : os.child.table tunFd = some e) :
    ∃ c, (nativeStartWithTunFd os (some exe) (some cfg) tunFd).exec? = some c ∧
      (∃ fl, c.table tunFd = some ⟨e.file, fl⟩ ∧ fl.testBit 0 = false ∧
        ∀ k, k ≠ 0 → fl.testBit k = e.flags.testBit k) ∧
      (∀ j, 3 ≤ j → j ≠ tunFd → j < os.child.maxfd → c.table j = none) ∧
      ((∀ j, (os.child.table j).isSome = true → j < os.child.maxfd) →
        ∀ j, 3 ≤ j → j ≠ tunFd → c.table j = none) := by
  rw [launch_child os exe cfg tunFd hfork]
  have hloop : ∀ j, closeLoop tunFd (os.child.maxfd - 3).toNat 3
        (clearCloexec os.child.table tunFd) j =
      if 3 ≤ j ∧ j < 3 + (((os.child.maxfd - 3).toNat : Nat) : Int) ∧ j ≠ tunFd then none
      else if j = tunFd then
        some ⟨e.file, (Int.land (e.flags : Int) (Int.lnot FD_CLOEXEC)).toNat⟩
      else os.child.table j := by
    intro j
    rw [closeLoop_apply, clearCloexec_open _ _ _ hopen]
  have htun : (closeLoop tunFd (os.child.maxfd - 3).toNat 3
      (clearCloexec os.child.table tunFd) tunFd).isSome = true := by
    rw [hloop]
    simp
  have htab : ∀ j, 3 ≤ j →
      (childImage os.child
        ((strncpy (uninit os.junkExe 512) exe (512 - 1)).set (512 - 1) 0)
        ((strncpy (uninit os.junkCfg 512) cfg (512 - 1)).set (512 - 1) 0) tunFd).table j =
      if 3 ≤ j ∧ j < 3 + (((os.child.maxfd - 3).toNat : Nat) : Int) ∧ j ≠ tunFd then none
      else if j = tunFd then
        some ⟨e.file, (Int.land (e.flags : Int) (Int.lnot FD_CLOEXEC)).toNat⟩
      else os.child.table j := by
    intro j hj
    show redirectStdin _ _ _ _ _ = _
    rw [redirectStdin_apply _ _ _ _ htun j (by omega), hloop]
  have hlow : ∀ j, 3 ≤ j → j ≠ tunFd → j < os.child.maxfd →
      (childImage os.child
        ((strncpy (uninit os.junkExe 512) exe (512 - 1)).set (512 - 1) 0)
        ((strncpy (uninit os.junkCfg 512) cfg (512 - 1)).set (512 - 1) 0) tunFd).table j
        = none := by
    intro j hj hne hlt
    rw [htab j hj]
    have hc : 3 ≤ j ∧ j < 3 + (((os.child.maxfd - 3).toNat : Nat) : Int) ∧ j ≠ tunFd := by
      refine ⟨hj, ?_, hne⟩
      omega
    rw [if_pos hc]
  have hhigh : ∀ j, 3 ≤ j → j ≠ tunFd → os.child.maxfd ≤ j →
      (childImage os.child
        ((strncpy (uninit os.junkExe 512) exe (512 - 1)).set (512 - 1) 0)
        ((strncpy (uninit os.junkCfg 512) cfg (512 - 1)).set (512 - 1) 0) tunFd).table j
        = os.child.table j := by
    intro j hj hne hge
    rw [htab j hj]
    have hc : ¬ (3 ≤ j ∧ j < 3 + (((os.child.maxfd - 3).toNat : Nat) : Int) ∧ j ≠ tunFd) := by
      intro h
      omega
    rw [if_neg hc, if_neg hne]
  refine ⟨_, rfl, ?_, hlow, ?_⟩
  · refine ⟨(Int.land (e.flags : Int) (Int.lnot FD_CLOEXEC)).toNat, ?_,
      (clear_cloexec_flags e.flags).1, (clear_cloexec_flags e.flags).2⟩
    rw [htab tunFd h3]
    simp
  · intro hb j hj hne
    by_cases hlt : j < os.child.maxfd
    · exact hlow j hj hne hlt
    · rw [hhigh j hj hne (not_lt.mp hlt)]
      cases hx : os.child.table j with
      | none => rfl
      | some x =>
        have := hb j (by rw [hx]; rfl)
        exact absurd this hlt

end TunHelper
